import Mathlib

/-!
Shallow embedding of the cost/nutrition rollup engine of `src/app.py`
(repository `Acmsilva1/aplicativo-receitas`).

Numeric cells coming from the spreadsheet are modelled as `Option ℚ`:
`none` stands for a blank or non-numeric cell, i.e. a value on which
`pd.to_numeric(..., errors="coerce")` yields `NaN`.  The currency-string
cleanup of `sanitize_and_convert` (stripping `R$` and locale separators)
happens before that coercion and is absorbed into this abstraction.

Pandas float columns appearing after the division/subtraction steps of
`get_calculated_cost_data` (lines 195-208) are modelled by `PVal`, a
rational number extended with `posInf`, `negInf` and `nan`, with the
arithmetic used by those lines (`-`, `/`, `replace([inf,-inf], nan)`,
`.fillna(0.0)`, `.round(n)`, `* 100`) spelled out.
-/

namespace Receitas

/-- `pd.to_numeric(x, errors="coerce").fillna(0.0)` — tolerant parse defaulting
to `0` (src/app.py line 75 and line 115). -/
def fillna0 (v : Option ℚ) : ℚ := v.getD 0

/-- `pd.to_numeric(x, errors="coerce").fillna(1).replace(0, 1)` — divisor
coercion (src/app.py lines 90, 158, 232): blank/non-numeric becomes `1`,
an exact `0` becomes `1`, anything else is kept. -/
def coerce1 (v : Option ℚ) : ℚ :=
  match v with
  | none => 1
  | some q => if q = 0 then 1 else q

/-- Dictionary lookup with the semantics of python dict construction from a
keyed sequence: on duplicate keys the LAST occurrence wins
(`set_index(...).to_dict()`, `{**a, **b}`). -/
def dlookup {α : Type} (l : List (String × α)) (k : String) : Option α :=
  (l.reverse.find? (fun p => p.1 == k)).map (fun p => p.2)

/-- The keys of an association list. -/
def keysOf {α : Type} (l : List (String × α)) : List String := l.map (fun p => p.1)

/-- One row of the `ingredientes_mestres` table.  `cells` returns the parsed
numeric cell of a named column (`VALOR_PACOTE`, `QUANT_PACOTE`, `KCAL`, ...);
`none` is a blank/non-numeric cell. -/
structure IngredientRow where
  nome : String
  unidade : String
  cells : String → Option ℚ

/-- Per-unit value of one master-ingredient row for attribute column `col`
(`calculate_master_data`, src/app.py lines 80-98): for the cost column the
package value is divided by the coerced package quantity; any other
attribute is taken as already per base unit. -/
def masterValue (r : IngredientRow) (col : String) : ℚ :=
  let valor := fillna0 (r.cells col)
  if col = "VALOR_PACOTE" then valor / coerce1 (r.cells "QUANT_PACOTE") else valor

/-- The value map returned by `calculate_master_data` (src/app.py line 104):
ingredient name mapped to its per-unit attribute value; duplicate names are
resolved last-wins by `dlookup`. -/
def masterDict (ings : List IngredientRow) (col : String) : List (String × ℚ) :=
  ings.map (fun r => (r.nome, masterValue r col))

/-- One recipe line: grouping key (`NOME_BASE` or `NOME_BOLO`), component
name, and raw quantity cell (`QUANT_RECEITA`). -/
structure RecipeRow where
  receita : String
  ingrediente : String
  quant : Option ℚ
deriving DecidableEq

/-- Per-line contribution (`calc_item_total_value`, src/app.py lines 117-126):
a component absent from the value map contributes `0.0`; otherwise unit value
times the coerced quantity. -/
def contrib (dict : List (String × ℚ)) (r : RecipeRow) : ℚ :=
  match dlookup dict r.ingrediente with
  | none => 0
  | some v => v * fillna0 r.quant

/-- One row of the line detail returned by `calculate_recipe_general`
(src/app.py lines 128-139) after the rename to `VALOR_UNITARIO_ITEM` /
`VALOR_TOTAL_CALCULADO`. -/
structure DetailRow where
  receita : String
  ingrediente : String
  quant : ℚ
  valorUnitario : ℚ
  valorTotal : ℚ
deriving DecidableEq

/-- The detail row built for one input line: unit value via
`unit_value_dict.get(x, 0.0)` (line 128), total via `calc_item_total_value`. -/
def detailRow (dict : List (String × ℚ)) (r : RecipeRow) : DetailRow :=
  { receita := r.receita
    ingrediente := r.ingrediente
    quant := fillna0 r.quant
    valorUnitario := (dlookup dict r.ingrediente).getD 0
    valorTotal := contrib dict r }

/-- The full line detail: one row per input line, in input order. -/
def lineDetail (rows : List RecipeRow) (dict : List (String × ℚ)) : List DetailRow :=
  rows.map (detailRow dict)

/-- `groupby(receita_col_name)["VALOR_TOTAL_ITEM"].sum()` restricted to one
grouping key: the sum of the contributions of the lines sharing that key. -/
def recipeTotal (rows : List RecipeRow) (dict : List (String × ℚ)) (k : String) : ℚ :=
  ((rows.filter (fun r => r.receita == k)).map (contrib dict)).sum

/-- The distinct grouping keys present in the input (the keys of the groupby;
their order is irrelevant to any dictionary lookup). -/
def recipeKeys (rows : List RecipeRow) : List String :=
  (rows.map (fun r => r.receita)).dedup

/-- The per-recipe totals dictionary returned by `calculate_recipe_general`
(src/app.py line 131). -/
def totalsList (rows : List RecipeRow) (dict : List (String × ℚ)) : List (String × ℚ) :=
  (recipeKeys rows).map (fun k => (k, recipeTotal rows dict k))

/-- One row of the `receitas_bases` table: base name, component, quantity and
the raw `RENDIMENTO_FINAL_UNIDADES` cell carried on every line. -/
structure BaseRow where
  nomeBase : String
  ingrediente : String
  quant : Option ℚ
  rendimento : Option ℚ
deriving DecidableEq

/-- A base line viewed as a plain recipe line (grouping key `NOME_BASE`). -/
def BaseRow.toRecipeRow (r : BaseRow) : RecipeRow :=
  { receita := r.nomeBase, ingrediente := r.ingrediente, quant := r.quant }

/-- `df[["NOME_BASE", "RENDIMENTO_FINAL_UNIDADES"]].drop_duplicates()`:
keeps the first occurrence of each distinct (name, raw cell) pair. -/
def dedupKeepFirst : List (String × Option ℚ) → List (String × Option ℚ)
  | [] => []
  | p :: ps => p :: dedupKeepFirst (ps.filter (fun q => q ≠ p))
termination_by l => l.length
decreasing_by
  simpa using Nat.lt_succ_of_le (List.length_filter_le _ ps)

/-- The yield dictionary (src/app.py lines 157-159 and 231-233):
drop_duplicates on the raw pairs, coercion of the yield cell, then
`set_index("NOME_BASE").to_dict()` (last occurrence wins). -/
def rendDict (bases : List BaseRow) : List (String × ℚ) :=
  (dedupKeepFirst (bases.map (fun r => (r.nomeBase, r.rendimento)))).map
    (fun p => (p.1, coerce1 p.2))

/-- `rendimento_bases.get(base, 1)` (src/app.py line 163). -/
def rendimentoBases (bases : List BaseRow) (b : String) : ℚ :=
  (dlookup (rendDict bases) b).getD 1

/-- The yield-adjusted base dictionary (src/app.py lines 161-165 and
254-258): every per-batch base total divided by its coerced yield. -/
def adjustedBaseDict (bases : List BaseRow) (ingDict : List (String × ℚ)) :
    List (String × ℚ) :=
  (totalsList (bases.map BaseRow.toRecipeRow) ingDict).map
    (fun p => (p.1, p.2 / rendimentoBases bases p.1))

/-- The unified lookup `{**ingredient_dict, **adjusted_base_dict}`
(src/app.py line 167 with `col = "VALOR_PACOTE"`, line 260 with a nutrient
column): python dict merge, the later (base) entries overriding the earlier
(ingredient) ones under the last-wins `dlookup`. -/
def unifiedDict (ings : List IngredientRow) (bases : List BaseRow) (col : String) :
    List (String × ℚ) :=
  masterDict ings col ++ adjustedBaseDict bases (masterDict ings col)

/-- A pandas float value: finite rational, infinity of either sign, or NaN. -/
inductive PVal where
  | num (q : ℚ)
  | posInf
  | negInf
  | nan
deriving DecidableEq

/-- Float subtraction as used on the price and cost columns. -/
def psub : PVal → PVal → PVal
  | .nan, _ => .nan
  | _, .nan => .nan
  | .num a, .num b => .num (a - b)
  | .num _, .posInf => .negInf
  | .num _, .negInf => .posInf
  | .posInf, .num _ => .posInf
  | .negInf, .num _ => .negInf
  | .posInf, .negInf => .posInf
  | .negInf, .posInf => .negInf
  | .posInf, .posInf => .nan
  | .negInf, .negInf => .nan

/-- Float division with the numpy conventions: a nonzero finite value divided
by zero gives a signed infinity, `0/0` gives NaN. -/
def pdiv : PVal → PVal → PVal
  | .nan, _ => .nan
  | _, .nan => .nan
  | .num a, .num b =>
      if b = 0 then (if a = 0 then .nan else if 0 < a then .posInf else .negInf)
      else .num (a / b)
  | .num _, .posInf => .num 0
  | .num _, .negInf => .num 0
  | .posInf, .num b => if 0 ≤ b then .posInf else .negInf
  | .negInf, .num b => if 0 ≤ b then .negInf else .posInf
  | .posInf, _ => .nan
  | .negInf, _ => .nan

/-- `.replace([np.inf, -np.inf], np.nan)`. -/
def cleanInf : PVal → PVal
  | .posInf => .nan
  | .negInf => .nan
  | v => v

/-- `.fillna(0.0)`. -/
def pfill0 : PVal → PVal
  | .nan => .num 0
  | v => v

/-- Decimal rounding to 2 places on rationals (pandas `.round(2)`; the
half-way tie convention differs from numpy only on exact ties, which no
claim exercises). -/
def round2 (q : ℚ) : ℚ := ((round (q * 100) : ℤ) : ℚ) / 100

/-- Decimal rounding to 1 place (`.round(1)`). -/
def round1 (q : ℚ) : ℚ := ((round (q * 10) : ℤ) : ℚ) / 10

/-- `.round(2)` on a float column (NaN and infinities pass through). -/
def pround2 : PVal → PVal
  | .num q => .num (round2 q)
  | v => v

/-- `.round(1)` on a float column. -/
def pround1 : PVal → PVal
  | .num q => .num (round1 q)
  | v => v

/-- `* 100` on a float column. -/
def pmul100 : PVal → PVal
  | .num q => .num (q * 100)
  | .posInf => .posInf
  | .negInf => .negInf
  | .nan => .nan

/-- One row of the unified pricing table produced by
`get_calculated_cost_data`.  `custo` is the state of the cost column after
line 197 (`replace(0, np.nan)`), so it is `nan` exactly when the rounded
cost is `0`.  `preco` is already filled with `0.0` (line 193), hence plain. -/
structure CostRow where
  produto : String
  tipo : String
  custo : PVal
  preco : ℚ
  lucro : PVal
  margem : PVal
deriving DecidableEq

/-- The left-merge against the sanitized market-price table (src/app.py
lines 185-190 joined with the sanitize at line 308): the first row of the
price table whose product name matches.  Product names in the price table
are assumed unique, which makes pandas merge produce exactly this row. -/
def precoLookup (precos : List (String × Option ℚ)) (p : String) : Option ℚ :=
  ((precos.find? (fun r => r.1 == p)).map (fun r => fillna0 r.2))

/-- Steps 6-7 of `get_calculated_cost_data` (src/app.py lines 182-208) for
one product entry `(name, raw cost)`: round the cost, replace a zero cost by
NaN, left-join the price (missing price becomes `0.0`), then
`lucro = round2(fillna0(cleanInf(preco - custo)))` and
`margem = round1(fillna0(cleanInf(lucro / preco)) * 100)`. -/
def costRowOf (precos : List (String × Option ℚ)) (tipo : String) (p : String × ℚ) :
    CostRow :=
  let c := round2 p.2
  let custoP : PVal := if c = 0 then .nan else .num c
  let preco : ℚ := (precoLookup precos p.1).getD 0
  let lucro : PVal := pround2 (pfill0 (cleanInf (psub (.num preco) custoP)))
  let margem : PVal := pround1 (pmul100 (pfill0 (cleanInf (pdiv lucro (.num preco)))))
  { produto := p.1, tipo := tipo, custo := custoP, preco := preco,
    lucro := lucro, margem := margem }

/-- The unified pricing table of `get_calculated_cost_data` (src/app.py
lines 143-210): final products (from the finals totals over the unified
lookup) followed by the yield-adjusted bases, each put through the
price/profit/margin steps. -/
def costOutput (ings : List IngredientRow) (bases : List BaseRow)
    (finais : List RecipeRow) (precos : List (String × Option ℚ)) : List CostRow :=
  let ingDict := masterDict ings "VALOR_PACOTE"
  let adj := adjustedBaseDict bases ingDict
  let finDict := totalsList finais (ingDict ++ adj)
  (finDict.map (costRowOf precos "Bolo Final (Especial)")) ++
    (adj.map (costRowOf precos "Bolo Comum (Base)"))

/-- Modelled from the spec: the `multiplier` metric (`price / cost` when
`cost > 0`, else `0`, spec §4.5) is described in the specification but is
absent from src/app.py, which computes no multiplier column. -/
def multiplier (preco custo : ℚ) : ℚ :=
  if 0 < custo then preco / custo else 0

/-- The margin classification of `main` (src/app.py lines 527-533):
strictly above 40 is "Excelente", at least 20 is "Razoável", otherwise
"Baixa". -/
def classificacao (m : ℚ) : String :=
  if 40 < m then "Excelente"
  else if 20 ≤ m then "Razoável"
  else "Baixa"

end Receitas


namespace Receitas

/-! ### Concrete input fixtures

Small concrete tables used by the closed scenario theorems and by the
witnesses of the quantified theorems. -/

/-- Master ingredient FLOUR: package of 1000 G costing 10.00. -/
def flourRow : IngredientRow :=
  { nome := "FLOUR", unidade := "G",
    cells := fun c =>
      if c = "VALOR_PACOTE" then some 10
      else if c = "QUANT_PACOTE" then some 1000
      else none }

/-- Master ingredient SUGAR: package of 1000 G costing 20.00, hence a
per-unit cost of 0.02/G. -/
def sugarRow : IngredientRow :=
  { nome := "SUGAR", unidade := "G",
    cells := fun c =>
      if c = "VALOR_PACOTE" then some 20
      else if c = "QUANT_PACOTE" then some 1000
      else none }

/-- Base MASSA: one line of 500 G of FLOUR, yield 2 units per batch. -/
def massaRow : BaseRow :=
  { nomeBase := "MASSA", ingrediente := "FLOUR", quant := some 500,
    rendimento := some 2 }

/-- Final product BOLO_X: 1 unit of MASSA plus 100 G of SUGAR. -/
def boloLines : List RecipeRow :=
  [ { receita := "BOLO_X", ingrediente := "MASSA", quant := some 1 },
    { receita := "BOLO_X", ingrediente := "SUGAR", quant := some 100 } ]

/-- Market price table giving BOLO_X the price 9.00. -/
def precosX : List (String × Option ℚ) := [("BOLO_X", some 9)]

/-- Ingredient whose package quantity cell is an exact zero. -/
def ingZeroQuant : IngredientRow :=
  { nome := "ING_A", unidade := "G",
    cells := fun c =>
      if c = "VALOR_PACOTE" then some 10
      else if c = "QUANT_PACOTE" then some 0
      else none }

/-- Base whose declared yield cell is an exact zero. -/
def baseZeroYield : BaseRow :=
  { nomeBase := "B0", ingrediente := "ING_A", quant := some 1,
    rendimento := some 0 }

/-- Final product built on the zero-quantity ingredient. -/
def finaisZ : List RecipeRow :=
  [ { receita := "BZ", ingrediente := "ING_A", quant := some 1 } ]

/-- Final product whose only line references an unknown component, so its
total cost is 0. -/
def finaisGhost : List RecipeRow :=
  [ { receita := "BOLO_Y", ingrediente := "GHOST", quant := some 1 } ]

/-- Market price table giving BOLO_Y the price 5.00. -/
def precosY : List (String × Option ℚ) := [("BOLO_Y", some 5)]

/-- Ingredient named DUP, to collide with a base of the same name. -/
def dupIngredient : IngredientRow :=
  { nome := "DUP", unidade := "G",
    cells := fun c =>
      if c = "VALOR_PACOTE" then some 4
      else if c = "QUANT_PACOTE" then some 2
      else none }

/-- Base also named DUP, colliding with the ingredient DUP. -/
def dupBase : BaseRow :=
  { nomeBase := "DUP", ingrediente := "X", quant := some 1, rendimento := some 1 }

/-- Two recipe lines of one recipe R, used by the sum-invariant witness. -/
def sumRows : List RecipeRow :=
  [ { receita := "R", ingrediente := "X", quant := some 2 },
    { receita := "R", ingrediente := "Y", quant := some 3 } ]

/-- A one-entry value map binding X to 3. -/
def sumDict : List (String × ℚ) := [("X", 3)]

/-- A recipe line referencing the unknown component GHOST. -/
def ghostLine : RecipeRow := { receita := "R", ingrediente := "GHOST", quant := some 2 }

/-- The BOLO_X output row of the full scenario (price 9.00). -/
def rowBoloX : CostRow :=
  { produto := "BOLO_X", tipo := "Bolo Final (Especial)", custo := .num (9/2),
    preco := 9, lucro := .num (9/2), margem := .num 50 }

/-- The BOLO_X output row when the market-price table is empty. -/
def rowBoloXNoPrice : CostRow :=
  { produto := "BOLO_X", tipo := "Bolo Final (Especial)", custo := .num (9/2),
    preco := 0, lucro := .num (-(9/2)), margem := .num 0 }

/-- The BZ output row of the zero-divisor tables. -/
def rowBZ : CostRow :=
  { produto := "BZ", tipo := "Bolo Final (Especial)", custo := .num 10,
    preco := 0, lucro := .num (-10), margem := .num 0 }

end Receitas

namespace Receitas

/-! ### Dictionary lemmas -/

/-- If some pair of `l` has key `k` and every pair of `l` with key `k`
carries the value `v`, the dictionary lookup yields `v`. -/
theorem dlookup_eq_of_forall {α : Type} {l : List (String × α)} {k : String} {v : α}
    (hmem : ∃ p ∈ l, p.1 = k) (hall : ∀ p ∈ l, p.1 = k → p.2 = v) :
    dlookup l k = some v := by
  obtain ⟨p, hp, hpk⟩ := hmem
  have hsome : (l.reverse.find? (fun q => q.1 == k)).isSome := by
    rw [List.find?_isSome]
    exact ⟨p, List.mem_reverse.mpr hp, by simpa using hpk⟩
  obtain ⟨q, hq⟩ := Option.isSome_iff_exists.mp hsome
  have hqk : q.1 = k := by simpa using List.find?_some hq
  have hqmem : q ∈ l := List.mem_reverse.mp (List.mem_of_find?_eq_some hq)
  rw [dlookup, hq]
  exact congrArg some (hall q hqmem hqk)

/-- A successful lookup returns a pair of the list. -/
theorem dlookup_mem {α : Type} {l : List (String × α)} {k : String} {v : α}
    (h : dlookup l k = some v) : (k, v) ∈ l := by
  rw [dlookup] at h
  obtain ⟨q, hq, hqv⟩ := Option.map_eq_some'.mp h
  have hqk : q.1 = k := by simpa using List.find?_some hq
  have hqmem : q ∈ l := List.mem_reverse.mp (List.mem_of_find?_eq_some hq)
  have : q = (k, v) := by
    cases q
    simp_all
  rwa [this] at hqmem

/-- Lookup in a concatenation prefers the right-hand list when the key is
present there: the python `{**a, **b}` override direction. -/
theorem dlookup_append_right {α : Type} {l₁ l₂ : List (String × α)} {k : String}
    (h : k ∈ keysOf l₂) :
    dlookup (l₁ ++ l₂) k = dlookup l₂ k := by
  obtain ⟨p, hp, hpk⟩ := List.mem_map.mp h
  have hsome : (l₂.reverse.find? (fun q => q.1 == k)).isSome := by
    rw [List.find?_isSome]
    exact ⟨p, List.mem_reverse.mpr hp, by simpa using hpk⟩
  obtain ⟨q, hq⟩ := Option.isSome_iff_exists.mp hsome
  rw [dlookup, dlookup, List.reverse_append, List.find?_append, hq]
  rfl

/-- Lookup of `k` over a list tabulating `f` on keys containing `k`. -/
theorem dlookup_tabulate {k : String} {keys : List String} (f : String → ℚ)
    (hk : k ∈ keys) :
    dlookup (keys.map (fun x => (x, f x))) k = some (f k) := by
  apply dlookup_eq_of_forall
  · exact ⟨(k, f k), List.mem_map.mpr ⟨k, hk, rfl⟩, rfl⟩
  · rintro p hp hpk
    obtain ⟨x, _, rfl⟩ := List.mem_map.mp hp
    have hx : x = k := hpk
    rw [hx]

/-! ### drop_duplicates lemmas -/

/-- Every pair surviving `dedupKeepFirst` comes from the original list. -/
theorem mem_of_mem_dedupKeepFirst :
    ∀ {l : List (String × Option ℚ)} {p : String × Option ℚ},
      p ∈ dedupKeepFirst l → p ∈ l
  | [], p, h => by simp [dedupKeepFirst] at h
  | q :: qs, p, h => by
      rw [dedupKeepFirst] at h
      rcases List.mem_cons.mp h with h | h
      · simp [h]
      · exact List.mem_cons_of_mem _
          (List.mem_of_mem_filter (mem_of_mem_dedupKeepFirst h))
termination_by l p _h => l.length
decreasing_by
  simpa using Nat.lt_succ_of_le (List.length_filter_le _ qs)

/-- A key present in the original list is still present after
`dedupKeepFirst`. -/
theorem key_mem_dedupKeepFirst :
    ∀ {l : List (String × Option ℚ)} {b : String},
      (∃ p ∈ l, p.1 = b) → ∃ p ∈ dedupKeepFirst l, p.1 = b
  | [], b, h => by simp at h
  | q :: qs, b, h => by
      rw [dedupKeepFirst]
      by_cases hq : q.1 = b
      · exact ⟨q, List.mem_cons_self _ _, hq⟩
      · obtain ⟨p, hp, hpk⟩ := h
        rcases List.mem_cons.mp hp with rfl | hp
        · exact absurd hpk hq
        · have hne : p ≠ q := by
            intro hcon
            rw [hcon] at hpk
            exact hq hpk
          have : p ∈ qs.filter (fun r => r ≠ q) := by
            refine List.mem_filter.mpr ⟨hp, ?_⟩
            simpa using hne
          obtain ⟨r, hr, hrk⟩ := key_mem_dedupKeepFirst ⟨p, this, hpk⟩
          exact ⟨r, List.mem_cons_of_mem _ hr, hrk⟩
termination_by l b _h => l.length
decreasing_by
  simpa using Nat.lt_succ_of_le (List.length_filter_le _ qs)

end Receitas

namespace Receitas

/-! ### Rounding and pipeline lemmas -/

theorem round2_zero : round2 0 = 0 := by simp [round2]

theorem round1_zero : round1 0 = 0 := by simp [round1]

/-- If every line of base `b` declares the same raw yield cell `v`, the
yield dictionary of src/app.py lines 157-159 resolves `b` to `coerce1 v`. -/
theorem rendimentoBases_const {bases : List BaseRow} {b : String} {v : Option ℚ}
    (hmem : b ∈ bases.map BaseRow.nomeBase)
    (hconst : ∀ r ∈ bases, r.nomeBase = b → r.rendimento = v) :
    rendimentoBases bases b = coerce1 v := by
  obtain ⟨r0, hr0, hr0b⟩ := List.mem_map.mp hmem
  have hkey : ∃ p ∈ bases.map (fun r => (r.nomeBase, r.rendimento)), p.1 = b :=
    ⟨(r0.nomeBase, r0.rendimento), List.mem_map.mpr ⟨r0, hr0, rfl⟩, hr0b⟩
  obtain ⟨q, hq, hqb⟩ := key_mem_dedupKeepFirst hkey
  have hlook : dlookup (rendDict bases) b = some (coerce1 v) := by
    apply dlookup_eq_of_forall
    · exact ⟨(q.1, coerce1 q.2), List.mem_map.mpr ⟨q, hq, rfl⟩, hqb⟩
    · rintro p hp hpk
      obtain ⟨s, hs, rfl⟩ := List.mem_map.mp hp
      have hs' : s ∈ bases.map (fun r => (r.nomeBase, r.rendimento)) :=
        mem_of_mem_dedupKeepFirst hs
      obtain ⟨t, ht, rfl⟩ := List.mem_map.mp hs'
      have hrend : t.rendimento = v := hconst t ht hpk
      simp [hrend]
  rw [rendimentoBases, hlook]
  rfl

/-- The unified lookup resolves a base name to the per-batch total of its
lines divided by the coerced declared yield, whatever value map the
ingredient tier produced for that name. -/
theorem unified_base_lookup {ings : List IngredientRow} {bases : List BaseRow}
    {col : String} {b : String} {v : Option ℚ}
    (hmem : b ∈ bases.map BaseRow.nomeBase)
    (hconst : ∀ r ∈ bases, r.nomeBase = b → r.rendimento = v) :
    dlookup (unifiedDict ings bases col) b =
      some (recipeTotal (bases.map BaseRow.toRecipeRow) (masterDict ings col) b
        / coerce1 v) := by
  have hkeys : b ∈ recipeKeys (bases.map BaseRow.toRecipeRow) := by
    rw [recipeKeys, List.map_map]
    refine List.mem_dedup.mpr ?_
    simpa [Function.comp, BaseRow.toRecipeRow] using hmem
  have hadj : dlookup (adjustedBaseDict bases (masterDict ings col)) b
      = some (recipeTotal (bases.map BaseRow.toRecipeRow) (masterDict ings col) b
          / rendimentoBases bases b) := by
    rw [adjustedBaseDict, totalsList, List.map_map]
    exact dlookup_tabulate
      (fun k => recipeTotal (bases.map BaseRow.toRecipeRow) (masterDict ings col) k
        / rendimentoBases bases k) hkeys
  have hkb : b ∈ keysOf (adjustedBaseDict bases (masterDict ings col)) :=
    List.mem_map.mpr ⟨_, dlookup_mem hadj, rfl⟩
  rw [unifiedDict, dlookup_append_right hkb, hadj,
    rendimentoBases_const hmem hconst]

/-- The contributions recorded in the line detail for one grouping key sum
to exactly the groupby total of that key. -/
theorem lineDetail_filter_sum (rows : List RecipeRow) (dict : List (String × ℚ))
    (k : String) :
    (((lineDetail rows dict).filter (fun d => d.receita == k)).map
        (fun d => d.valorTotal)).sum = recipeTotal rows dict k := by
  rw [lineDetail, recipeTotal, List.filter_map, List.map_map]
  rfl

/-- Every row of the unified pricing table is `costRowOf` of some product
entry. -/
theorem mem_costOutput {ings : List IngredientRow} {bases : List BaseRow}
    {finais : List RecipeRow} {precos : List (String × Option ℚ)} {row : CostRow}
    (h : row ∈ costOutput ings bases finais precos) :
    ∃ tipo p, row = costRowOf precos tipo p := by
  simp only [costOutput] at h
  rcases List.mem_append.mp h with h | h
  · obtain ⟨p, _, rfl⟩ := List.mem_map.mp h
    exact ⟨_, p, rfl⟩
  · obtain ⟨p, _, rfl⟩ := List.mem_map.mp h
    exact ⟨_, p, rfl⟩

end Receitas

namespace Receitas

/-- Complete description of the profit and margin columns produced by the
steps of src/app.py lines 197-208 for one product entry: a NaN cost (a cost
whose rounded value was `0`) forces profit and margin to `0`; a finite cost
gives the rounded difference and, for a nonzero price, the rounded
percentage; the cost column itself is NaN or a nonzero finite value. -/
theorem costRowOf_cases (precos : List (String × Option ℚ)) (tipo : String)
    (p : String × ℚ) :
    ((costRowOf precos tipo p).custo = .nan →
        (costRowOf precos tipo p).lucro = .num 0 ∧
        (costRowOf precos tipo p).margem = .num 0)
    ∧ (∀ c : ℚ, (costRowOf precos tipo p).custo = .num c →
        (costRowOf precos tipo p).lucro
            = .num (round2 ((costRowOf precos tipo p).preco - c))
        ∧ (costRowOf precos tipo p).margem
            = .num (if (costRowOf precos tipo p).preco = 0 then 0
                else round1 (round2 ((costRowOf precos tipo p).preco - c)
                  / (costRowOf precos tipo p).preco * 100)))
    ∧ ((costRowOf precos tipo p).custo = .nan
        ∨ ∃ c : ℚ, (costRowOf precos tipo p).custo = .num c ∧ c ≠ 0) := by
  by_cases hc : round2 p.2 = 0
  · refine ⟨?_, ?_, Or.inl (by simp [costRowOf, hc])⟩
    · intro _
      by_cases hpr : (precoLookup precos p.1).getD 0 = 0 <;>
        simp [costRowOf, hc, hpr, psub, pdiv, cleanInf, pfill0, pround2, pround1,
          pmul100, round2_zero, round1_zero]
    · intro c hcon
      simp [costRowOf, hc] at hcon
  · refine ⟨?_, ?_, Or.inr ⟨round2 p.2, by simp [costRowOf, hc], hc⟩⟩
    · intro hcon
      simp [costRowOf, hc] at hcon
    · intro c hcon
      have hceq : c = round2 p.2 := by
        simp [costRowOf, hc] at hcon
        exact hcon.symm
      subst hceq
      constructor
      · simp [costRowOf, hc, psub, cleanInf, pfill0, pround2]
      · by_cases hpr : (precoLookup precos p.1).getD 0 = 0
        · have hL : ∀ q : ℚ,
              pround1 (pmul100 (pfill0 (cleanInf (pdiv (.num q) (.num 0))))) = .num 0 := by
            intro q
            by_cases hq : q = 0
            · simp [pdiv, hq, cleanInf, pfill0, pmul100, pround1, round1_zero]
            · rcases lt_or_gt_of_ne hq with hlt | hgt
              · simp [pdiv, hq, not_lt_of_lt hlt, cleanInf, pfill0, pmul100, pround1,
                  round1_zero]
              · simp [pdiv, hq, hgt, cleanInf, pfill0, pmul100, pround1, round1_zero]
          simpa [costRowOf, hc, hpr, psub, cleanInf, pfill0, pround2]
            using hL (round2 ((precoLookup precos p.1).getD 0 - round2 p.2))
        · simp [costRowOf, hc, hpr, psub, pdiv, cleanInf, pfill0, pround2, pround1,
            pmul100]

end Receitas

namespace Receitas

/-- The divisor coercion never returns zero. -/
theorem coerce1_ne_zero (v : Option ℚ) : coerce1 v ≠ 0 := by
  rcases v with _ | q
  · simp [coerce1]
  · by_cases hq : q = 0 <;> simp [coerce1, hq]

/-- The yield divisor looked up for any base name is never zero. -/
theorem rendimentoBases_ne_zero (bases : List BaseRow) (b : String) :
    rendimentoBases bases b ≠ 0 := by
  rw [rendimentoBases]
  rcases hl : dlookup (rendDict bases) b with _ | v
  · simp
  · simp only [Option.getD_some]
    have hv := dlookup_mem hl
    rw [rendDict] at hv
    obtain ⟨s, _, hs⟩ := List.mem_map.mp hv
    have hv2 : coerce1 s.2 = v := congrArg Prod.snd hs
    rw [← hv2]
    exact coerce1_ne_zero s.2

/-! ### Evaluations of the pipeline on the concrete fixtures -/

/-- The full scenario table: FLOUR/SUGAR, MASSA, BOLO_X, price 9.00. -/
theorem costOutput_c1 :
    costOutput [flourRow, sugarRow] [massaRow] boloLines precosX =
      [ { produto := "BOLO_X", tipo := "Bolo Final (Especial)", custo := .num (9/2),
          preco := 9, lucro := .num (9/2), margem := .num 50 },
        { produto := "MASSA", tipo := "Bolo Comum (Base)", custo := .num (5/2),
          preco := 0, lucro := .num (-(5/2)), margem := .num 0 } ] := by
  simp +decide [costOutput, masterDict, masterValue, adjustedBaseDict, totalsList,
    recipeKeys, recipeTotal, contrib, dlookup, fillna0, coerce1, rendDict,
    rendimentoBases, dedupKeepFirst, BaseRow.toRecipeRow, costRowOf, precoLookup,
    flourRow, sugarRow, massaRow, boloLines, precosX,
    psub, pdiv, cleanInf, pfill0, pround2, pround1, pmul100, round2, round1, round_eq]
  norm_num

/-- The same scenario with an empty market-price table. -/
theorem costOutput_noprice :
    costOutput [flourRow, sugarRow] [massaRow] boloLines [] =
      [ { produto := "BOLO_X", tipo := "Bolo Final (Especial)", custo := .num (9/2),
          preco := 0, lucro := .num (-(9/2)), margem := .num 0 },
        { produto := "MASSA", tipo := "Bolo Comum (Base)", custo := .num (5/2),
          preco := 0, lucro := .num (-(5/2)), margem := .num 0 } ] := by
  simp +decide [costOutput, masterDict, masterValue, adjustedBaseDict, totalsList,
    recipeKeys, recipeTotal, contrib, dlookup, fillna0, coerce1, rendDict,
    rendimentoBases, dedupKeepFirst, BaseRow.toRecipeRow, costRowOf, precoLookup,
    flourRow, sugarRow, massaRow, boloLines,
    psub, pdiv, cleanInf, pfill0, pround2, pround1, pmul100, round2, round1, round_eq]
  norm_num

/-- A product with a zero cost (unknown-only recipe) and a price of 5.00:
the cost column is NaN and the profit is forced to 0. -/
theorem costOutput_ghost :
    costOutput [] [] finaisGhost precosY =
      [ { produto := "BOLO_Y", tipo := "Bolo Final (Especial)", custo := .nan,
          preco := 5, lucro := .num 0, margem := .num 0 } ] := by
  simp +decide [costOutput, masterDict, masterValue, adjustedBaseDict, totalsList,
    recipeKeys, recipeTotal, contrib, dlookup, fillna0, coerce1, rendDict,
    rendimentoBases, dedupKeepFirst, BaseRow.toRecipeRow, costRowOf, precoLookup,
    finaisGhost, precosY,
    psub, pdiv, cleanInf, pfill0, pround2, pround1, pmul100, round2, round1, round_eq]
  norm_num [psub, pdiv, cleanInf, pfill0, pround2, pround1, pmul100, round2, round1,
    round_eq]

/-- A zero-quantity ingredient with a zero-cost product: the output holds a
NaN in the cost column. -/
theorem costOutput_zeroGhost :
    costOutput [ingZeroQuant] [] finaisGhost [] =
      [ { produto := "BOLO_Y", tipo := "Bolo Final (Especial)", custo := .nan,
          preco := 0, lucro := .num 0, margem := .num 0 } ] := by
  simp +decide [costOutput, masterDict, masterValue, adjustedBaseDict, totalsList,
    recipeKeys, recipeTotal, contrib, dlookup, fillna0, coerce1, rendDict,
    rendimentoBases, dedupKeepFirst, BaseRow.toRecipeRow, costRowOf, precoLookup,
    finaisGhost, ingZeroQuant,
    psub, pdiv, cleanInf, pfill0, pround2, pround1, pmul100, round2, round1, round_eq]
  norm_num [psub, pdiv, cleanInf, pfill0, pround2, pround1, pmul100, round2, round1,
    round_eq]

/-- Zero package quantity and zero yield tables: both divisors are coerced
to 1, so BZ and B0 both cost 10. -/
theorem costOutput_zeroTables :
    costOutput [ingZeroQuant] [baseZeroYield] finaisZ [] =
      [ { produto := "BZ", tipo := "Bolo Final (Especial)", custo := .num 10,
          preco := 0, lucro := .num (-10), margem := .num 0 },
        { produto := "B0", tipo := "Bolo Comum (Base)", custo := .num 10,
          preco := 0, lucro := .num (-10), margem := .num 0 } ] := by
  simp +decide [costOutput, masterDict, masterValue, adjustedBaseDict, totalsList,
    recipeKeys, recipeTotal, contrib, dlookup, fillna0, coerce1, rendDict,
    rendimentoBases, dedupKeepFirst, BaseRow.toRecipeRow, costRowOf, precoLookup,
    finaisZ, ingZeroQuant, baseZeroYield,
    psub, pdiv, cleanInf, pfill0, pround2, pround1, pmul100, round2, round1, round_eq]
  norm_num

end Receitas

namespace Receitas

/-! ### Claim theorems -/

/-- C1: end-to-end cost rollup scenario.  With FLOUR at 10.00 per 1000 G,
SUGAR at 0.02/G, base MASSA of 500 G FLOUR with yield 2, final BOLO_X of
1 MASSA unit plus 100 G SUGAR, and market price 9.00: FLOUR per-unit cost
is 0.01/G, the MASSA batch totals 5.00 with per-unit cost 2.50, and the
BOLO_X output row has cost 4.50, profit 4.50, margin 50.0%; the multiplier
(modelled from the spec, absent from the source) is 2.00. -/
theorem end_to_end_scenario :
    dlookup (masterDict [flourRow, sugarRow] "VALOR_PACOTE") "FLOUR" = some (1/100)
    ∧ dlookup (masterDict [flourRow, sugarRow] "VALOR_PACOTE") "SUGAR" = some (1/50)
    ∧ recipeTotal ([massaRow].map BaseRow.toRecipeRow)
        (masterDict [flourRow, sugarRow] "VALOR_PACOTE") "MASSA" = 5
    ∧ dlookup (adjustedBaseDict [massaRow]
        (masterDict [flourRow, sugarRow] "VALOR_PACOTE")) "MASSA" = some (5/2)
    ∧ costOutput [flourRow, sugarRow] [massaRow] boloLines precosX =
        [ { produto := "BOLO_X", tipo := "Bolo Final (Especial)", custo := .num (9/2),
            preco := 9, lucro := .num (9/2), margem := .num 50 },
          { produto := "MASSA", tipo := "Bolo Comum (Base)", custo := .num (5/2),
            preco := 0, lucro := .num (-(5/2)), margem := .num 0 } ]
    ∧ multiplier 9 (9/2) = 2 := by
  refine ⟨?_, ?_, ?_, ?_, costOutput_c1, ?_⟩ <;>
    simp +decide [masterDict, masterValue, adjustedBaseDict, totalsList,
      recipeKeys, recipeTotal, contrib, dlookup, fillna0, coerce1, rendDict,
      rendimentoBases, dedupKeepFirst, BaseRow.toRecipeRow,
      flourRow, sugarRow, massaRow, multiplier] <;>
    norm_num

/-- C5: for every table of recipe lines, every attribute value map and
every grouping key present in the input, the per-recipe totals dictionary
maps that key to exactly the sum of the contributions recorded for that key
in the returned line detail — no rounding in this step. -/
theorem sum_invariant (rows : List RecipeRow) (dict : List (String × ℚ))
    (k : String) (hk : k ∈ recipeKeys rows) :
    dlookup (totalsList rows dict) k =
      some ((((lineDetail rows dict).filter (fun d => d.receita == k)).map
        (fun d => d.valorTotal)).sum) := by
  rw [totalsList, dlookup_tabulate _ hk, lineDetail_filter_sum]

theorem sum_invariant_witness :
    "R" ∈ recipeKeys sumRows
    ∧ dlookup (totalsList sumRows sumDict) "R" =
        some ((((lineDetail sumRows sumDict).filter (fun d => d.receita == "R")).map
          (fun d => d.valorTotal)).sum) :=
  ⟨by decide, sum_invariant sumRows sumDict "R" (by decide)⟩

/-- C7: a recipe line whose component name is absent from the attribute
value map contributes 0 to its recipe total, raises no error (the
computation is total), and is still emitted as a line-detail row with unit
value 0 and contribution 0 — for every attribute value map. -/
theorem unknown_component (dict : List (String × ℚ)) (rows : List RecipeRow)
    (r : RecipeRow) (hr : r ∈ rows)
    (hmiss : dlookup dict r.ingrediente = none) :
    contrib dict r = 0
    ∧ detailRow dict r ∈ lineDetail rows dict
    ∧ (detailRow dict r).valorUnitario = 0
    ∧ (detailRow dict r).valorTotal = 0 := by
  have hc : contrib dict r = 0 := by simp [contrib, hmiss]
  exact ⟨hc, List.mem_map.mpr ⟨r, hr, rfl⟩, by simp [detailRow, hmiss],
    by simp [detailRow, hc]⟩

theorem unknown_component_witness :
    ghostLine ∈ [ghostLine]
    ∧ dlookup sumDict "GHOST" = none
    ∧ (contrib sumDict ghostLine = 0
      ∧ detailRow sumDict ghostLine ∈ lineDetail [ghostLine] sumDict
      ∧ (detailRow sumDict ghostLine).valorUnitario = 0
      ∧ (detailRow sumDict ghostLine).valorTotal = 0) :=
  ⟨by decide, by decide,
    unknown_component sumDict [ghostLine] ghostLine (by decide) (by decide)⟩

end Receitas

namespace Receitas

/-- C6: yield scaling.  If every line of base `b` declares yield `y > 0`,
the unified lookup used by final-product aggregation resolves `b` to its
per-batch total `V` divided by `y`; replacing the declared yield by `2 * y`
halves that per-unit value. -/
theorem yield_scaling (ings : List IngredientRow) (bases : List BaseRow)
    (b : String) (y : ℚ) (hy : 0 < y)
    (hmem : b ∈ bases.map BaseRow.nomeBase)
    (hconst : ∀ r ∈ bases, r.nomeBase = b → r.rendimento = some y) :
    dlookup (unifiedDict ings bases "VALOR_PACOTE") b =
      some (recipeTotal (bases.map BaseRow.toRecipeRow)
        (masterDict ings "VALOR_PACOTE") b / y)
    ∧ dlookup (unifiedDict ings
        (bases.map (fun r => if r.nomeBase = b
          then { r with rendimento := some (2 * y) } else r)) "VALOR_PACOTE") b =
      some (recipeTotal (bases.map BaseRow.toRecipeRow)
        (masterDict ings "VALOR_PACOTE") b / y / 2) := by
  have hy0 : y ≠ 0 := ne_of_gt hy
  have h2y : (2 : ℚ) * y ≠ 0 := by positivity
  constructor
  · have h := @unified_base_lookup ings bases "VALOR_PACOTE" b (some y) hmem hconst
    rwa [show coerce1 (some y) = y by simp [coerce1, hy0]] at h
  · have hnom : (bases.map (fun r => if r.nomeBase = b
        then { r with rendimento := some (2 * y) } else r)).map BaseRow.nomeBase
          = bases.map BaseRow.nomeBase := by
      rw [List.map_map]
      apply List.map_congr_left
      intro r _
      by_cases h : r.nomeBase = b <;> simp [h]
    have hmem2 : b ∈ (bases.map (fun r => if r.nomeBase = b
        then { r with rendimento := some (2 * y) } else r)).map BaseRow.nomeBase := by
      rw [hnom]; exact hmem
    have hconst2 : ∀ r ∈ bases.map (fun r => if r.nomeBase = b
        then { r with rendimento := some (2 * y) } else r),
        r.nomeBase = b → r.rendimento = some (2 * y) := by
      intro r hr hrb
      obtain ⟨s, hs, rfl⟩ := List.mem_map.mp hr
      by_cases h : s.nomeBase = b
      · simp [h]
      · rw [if_neg h] at hrb ⊢
        exact absurd hrb h
    have hrows : (bases.map (fun r => if r.nomeBase = b
        then { r with rendimento := some (2 * y) } else r)).map BaseRow.toRecipeRow
          = bases.map BaseRow.toRecipeRow := by
      rw [List.map_map]
      apply List.map_congr_left
      intro r _
      by_cases h : r.nomeBase = b <;> simp [BaseRow.toRecipeRow, h]
    have h := @unified_base_lookup ings
      (bases.map (fun r => if r.nomeBase = b
        then { r with rendimento := some (2 * y) } else r)) "VALOR_PACOTE" b
      (some (2 * y)) hmem2 hconst2
    rw [hrows] at h
    rw [h, show coerce1 (some (2 * y)) = 2 * y by simp [coerce1, h2y],
      div_div, mul_comm y 2]

theorem yield_scaling_witness :
    (0 : ℚ) < 2
    ∧ "MASSA" ∈ [massaRow].map BaseRow.nomeBase
    ∧ (∀ r ∈ [massaRow], r.nomeBase = "MASSA" → r.rendimento = some 2)
    ∧ (dlookup (unifiedDict [flourRow, sugarRow] [massaRow] "VALOR_PACOTE") "MASSA" =
        some (recipeTotal ([massaRow].map BaseRow.toRecipeRow)
          (masterDict [flourRow, sugarRow] "VALOR_PACOTE") "MASSA" / 2)
      ∧ dlookup (unifiedDict [flourRow, sugarRow]
          ([massaRow].map (fun r => if r.nomeBase = "MASSA"
            then { r with rendimento := some (2 * 2) } else r)) "VALOR_PACOTE") "MASSA" =
        some (recipeTotal ([massaRow].map BaseRow.toRecipeRow)
          (masterDict [flourRow, sugarRow] "VALOR_PACOTE") "MASSA" / 2 / 2)) :=
  ⟨by norm_num, by decide, by decide,
    yield_scaling [flourRow, sugarRow] [massaRow] "MASSA" 2 (by norm_num)
      (by decide) (by decide)⟩

/-- C8: divisor coercion.  A `yieldUnits` or `packageQuantity` cell that is
blank, non-numeric, or zero is coerced to 1; the coerced divisor is never
zero; the attribute normalizer divides the package value by exactly this
coerced quantity; and the yield divisor looked up for any base is never
zero — so both divisions are always defined. -/
theorem divisor_coercion :
    coerce1 none = 1
    ∧ coerce1 (some 0) = 1
    ∧ (∀ v : Option ℚ, coerce1 v ≠ 0)
    ∧ (∀ r : IngredientRow,
        masterValue r "VALOR_PACOTE"
          = fillna0 (r.cells "VALOR_PACOTE") / coerce1 (r.cells "QUANT_PACOTE"))
    ∧ (∀ (bases : List BaseRow) (b : String), rendimentoBases bases b ≠ 0) :=
  ⟨rfl, by simp [coerce1], coerce1_ne_zero,
    fun r => by simp [masterValue], rendimentoBases_ne_zero⟩

theorem divisor_coercion_witness :
    coerce1 none = 1
    ∧ coerce1 (some 0) = 1
    ∧ coerce1 (some 7) ≠ 0
    ∧ masterValue ingZeroQuant "VALOR_PACOTE"
        = fillna0 (ingZeroQuant.cells "VALOR_PACOTE")
          / coerce1 (ingZeroQuant.cells "QUANT_PACOTE")
    ∧ rendimentoBases [baseZeroYield] "B0" ≠ 0 :=
  ⟨divisor_coercion.1, divisor_coercion.2.1, divisor_coercion.2.2.1 (some 7),
    divisor_coercion.2.2.2.1 ingZeroQuant, divisor_coercion.2.2.2.2 [baseZeroYield] "B0"⟩

/-- C9: name-collision precedence.  For any attribute column (the cost
column or any nutrient column), a name present both in the ingredient value
map and in the yield-adjusted base value map resolves, in the merged
unified lookup, to the base value: the later-merged base map wins. -/
theorem base_overrides_ingredient (ings : List IngredientRow)
    (bases : List BaseRow) (col : String) (n : String)
    (_hing : n ∈ keysOf (masterDict ings col))
    (hbase : n ∈ keysOf (adjustedBaseDict bases (masterDict ings col))) :
    dlookup (unifiedDict ings bases col) n
      = dlookup (adjustedBaseDict bases (masterDict ings col)) n := by
  rw [unifiedDict]
  exact dlookup_append_right hbase

theorem base_overrides_ingredient_witness :
    "DUP" ∈ keysOf (masterDict [dupIngredient] "VALOR_PACOTE")
    ∧ "DUP" ∈ keysOf (adjustedBaseDict [dupBase] (masterDict [dupIngredient] "VALOR_PACOTE"))
    ∧ dlookup (unifiedDict [dupIngredient] [dupBase] "VALOR_PACOTE") "DUP"
        = dlookup (adjustedBaseDict [dupBase] (masterDict [dupIngredient] "VALOR_PACOTE")) "DUP" :=
  ⟨by decide, by decide,
    base_overrides_ingredient [dupIngredient] [dupBase] "VALOR_PACOTE" "DUP"
      (by decide) (by decide)⟩

end Receitas

namespace Receitas

/-- C2 counterexample: with packageQuantity = 0 the per-unit cost is the
package value 10 — not 0 as claimed — and on the same input (which also
contains a zero-cost product) the output's cost column holds a NaN. -/
theorem zero_safety_counterexample :
    masterValue ingZeroQuant "VALOR_PACOTE" = 10
    ∧ (10 : ℚ) ≠ 0
    ∧ (costOutput [ingZeroQuant] [] finaisGhost []).map CostRow.custo = [PVal.nan] := by
  refine ⟨?_, by norm_num, by rw [costOutput_zeroGhost]; rfl⟩
  simp +decide [masterValue, fillna0, coerce1, ingZeroQuant]

/-- C2 (amended): the profit and margin columns are always finite (never
Infinity or NaN); the cost column is NaN exactly when the rounded cost is 0
(and otherwise a nonzero finite value); a zero price yields margin 0; a
zero packageQuantity is coerced to 1, so the per-unit cost equals the
package value (not 0); a zero yield is coerced to 1, so the per-unit base
value equals the batch total (not 0). -/
theorem zero_safety_amended (ings : List IngredientRow) (bases : List BaseRow)
    (finais : List RecipeRow) (precos : List (String × Option ℚ)) (row : CostRow)
    (hrow : row ∈ costOutput ings bases finais precos)
    (r : IngredientRow) (hq : r.cells "QUANT_PACOTE" = some 0)
    (b : String) (hb : b ∈ bases.map BaseRow.nomeBase)
    (hzero : ∀ s ∈ bases, s.nomeBase = b → s.rendimento = some 0) :
    ((∃ q : ℚ, row.lucro = .num q) ∧ (∃ q : ℚ, row.margem = .num q))
    ∧ (row.custo = .nan ∨ ∃ q : ℚ, row.custo = .num q ∧ q ≠ 0)
    ∧ (row.preco = 0 → row.margem = .num 0)
    ∧ masterValue r "VALOR_PACOTE" = fillna0 (r.cells "VALOR_PACOTE")
    ∧ dlookup (unifiedDict ings bases "VALOR_PACOTE") b
        = some (recipeTotal (bases.map BaseRow.toRecipeRow)
            (masterDict ings "VALOR_PACOTE") b) := by
  obtain ⟨tipo, p, rfl⟩ := mem_costOutput hrow
  obtain ⟨hnan, hnum, hshape⟩ := costRowOf_cases precos tipo p
  refine ⟨?_, hshape, ?_, ?_, ?_⟩
  · rcases hshape with h | ⟨c, h, _⟩
    · exact ⟨⟨0, (hnan h).1⟩, ⟨0, (hnan h).2⟩⟩
    · obtain ⟨hl, hm⟩ := hnum c h
      refine ⟨⟨_, hl⟩, ⟨_, hm⟩⟩
  · intro hp
    rcases hshape with h | ⟨c, h, _⟩
    · exact (hnan h).2
    · rw [(hnum c h).2, if_pos hp]
  · simp [masterValue, hq, coerce1]
  · have h := @unified_base_lookup ings bases "VALOR_PACOTE" b (some 0) hb hzero
    rwa [show coerce1 (some 0) = 1 by simp [coerce1], div_one] at h

theorem zero_safety_witness :
    rowBZ ∈ costOutput [ingZeroQuant] [baseZeroYield] finaisZ []
    ∧ ingZeroQuant.cells "QUANT_PACOTE" = some 0
    ∧ "B0" ∈ [baseZeroYield].map BaseRow.nomeBase
    ∧ (∀ s ∈ [baseZeroYield], s.nomeBase = "B0" → s.rendimento = some 0)
    ∧ (((∃ q : ℚ, rowBZ.lucro = .num q) ∧ (∃ q : ℚ, rowBZ.margem = .num q))
      ∧ (rowBZ.custo = .nan ∨ ∃ q : ℚ, rowBZ.custo = .num q ∧ q ≠ 0)
      ∧ (rowBZ.preco = 0 → rowBZ.margem = .num 0)
      ∧ masterValue ingZeroQuant "VALOR_PACOTE"
          = fillna0 (ingZeroQuant.cells "VALOR_PACOTE")
      ∧ dlookup (unifiedDict [ingZeroQuant] [baseZeroYield] "VALOR_PACOTE") "B0"
          = some (recipeTotal ([baseZeroYield].map BaseRow.toRecipeRow)
              (masterDict [ingZeroQuant] "VALOR_PACOTE") "B0")) :=
  ⟨by rw [costOutput_zeroTables]; exact List.mem_cons_self _ _,
    by decide, by decide, by decide,
    zero_safety_amended [ingZeroQuant] [baseZeroYield] finaisZ [] rowBZ
      (by rw [costOutput_zeroTables]; exact List.mem_cons_self _ _)
      ingZeroQuant (by decide) "B0" (by decide) (by decide)⟩

/-- C3 counterexample: BOLO_X (cost 4.50) with no matching market-price row
gets profit −4.50 (price − cost at price 0), not the claimed profit 0. -/
theorem missing_price_counterexample :
    (costOutput [flourRow, sugarRow] [massaRow] boloLines []).map CostRow.lucro
      = [PVal.num (-(9/2)), PVal.num (-(5/2))]
    ∧ PVal.num (-(9/2)) ≠ PVal.num 0 := by
  refine ⟨by rw [costOutput_noprice]; rfl, ?_⟩
  simp only [ne_eq, PVal.num.injEq]
  norm_num

/-- C3 (amended): the join against the market-price table is a left join
on product name; a product with no matching price row gets price 0 and
margin 0 with no error or infinity, its profit is `round2 (0 − cost)` (that
is, minus its cost; 0 only when the cost column is NaN), and the
spec-modelled multiplier is 0. -/
theorem missing_price_amended (ings : List IngredientRow) (bases : List BaseRow)
    (finais : List RecipeRow) (precos : List (String × Option ℚ)) (row : CostRow)
    (hrow : row ∈ costOutput ings bases finais precos)
    (hmiss : precoLookup precos row.produto = none) :
    row.preco = 0
    ∧ row.margem = .num 0
    ∧ (row.custo = .nan → row.lucro = .num 0)
    ∧ (∀ c : ℚ, row.custo = .num c → row.lucro = .num (round2 (0 - c)))
    ∧ (∀ c : ℚ, multiplier row.preco c = 0) := by
  obtain ⟨tipo, p, rfl⟩ := mem_costOutput hrow
  have hpre : (costRowOf precos tipo p).preco = 0 := by
    show (precoLookup precos p.1).getD 0 = 0
    have hm : precoLookup precos p.1 = none := hmiss
    rw [hm]
    rfl
  obtain ⟨hnan, hnum, hshape⟩ := costRowOf_cases precos tipo p
  refine ⟨hpre, ?_, fun h => (hnan h).1, ?_, ?_⟩
  · rcases hshape with h | ⟨c, h, _⟩
    · exact (hnan h).2
    · rw [(hnum c h).2, if_pos hpre]
  · intro c h
    have hl := (hnum c h).1
    rwa [hpre] at hl
  · intro c
    rw [hpre, multiplier]
    split
    · exact zero_div c
    · rfl

theorem missing_price_witness :
    rowBoloXNoPrice ∈ costOutput [flourRow, sugarRow] [massaRow] boloLines []
    ∧ precoLookup [] rowBoloXNoPrice.produto = none
    ∧ (rowBoloXNoPrice.preco = 0
      ∧ rowBoloXNoPrice.margem = .num 0
      ∧ (rowBoloXNoPrice.custo = .nan → rowBoloXNoPrice.lucro = .num 0)
      ∧ (∀ c : ℚ, rowBoloXNoPrice.custo = .num c →
          rowBoloXNoPrice.lucro = .num (round2 (0 - c)))
      ∧ (∀ c : ℚ, multiplier rowBoloXNoPrice.preco c = 0)) :=
  ⟨by rw [costOutput_noprice]; exact List.mem_cons_self _ _,
    rfl,
    missing_price_amended [flourRow, sugarRow] [massaRow] boloLines [] rowBoloXNoPrice
      (by rw [costOutput_noprice]; exact List.mem_cons_self _ _) rfl⟩

/-- C4 counterexample: a product with cost 0 and price 5.00 gets output
profit 0, not price − cost = 5: the zero cost was replaced by NaN before
the subtraction and the NaN difference was filled with 0. -/
theorem profit_formula_counterexample :
    (costOutput [] [] finaisGhost precosY).map CostRow.lucro = [PVal.num 0]
    ∧ (costOutput [] [] finaisGhost precosY).map CostRow.preco = [5]
    ∧ (costOutput [] [] finaisGhost precosY).map CostRow.custo = [PVal.nan]
    ∧ PVal.num ((5 : ℚ) - 0) ≠ PVal.num 0 := by
  refine ⟨by rw [costOutput_ghost]; rfl, by rw [costOutput_ghost]; rfl,
    by rw [costOutput_ghost]; rfl, ?_⟩
  simp only [ne_eq, PVal.num.injEq]
  norm_num

/-- C4 (amended): for every output row, when the cost column is NaN (the
rounded cost was 0) the profit and margin are both 0 regardless of price;
when the cost is a finite `c`, profit is `round2 (price − c)` and margin is
`round1 (profit / price * 100)` for a nonzero price and 0 for a zero price.
Division by zero never reaches the output: NaN and infinities are replaced
by 0 before it. -/
theorem profit_margin_formulas (ings : List IngredientRow) (bases : List BaseRow)
    (finais : List RecipeRow) (precos : List (String × Option ℚ)) (row : CostRow)
    (hrow : row ∈ costOutput ings bases finais precos) :
    (row.custo = .nan → row.lucro = .num 0 ∧ row.margem = .num 0)
    ∧ (∀ c : ℚ, row.custo = .num c →
        row.lucro = .num (round2 (row.preco - c))
        ∧ row.margem = .num (if row.preco = 0 then 0
            else round1 (round2 (row.preco - c) / row.preco * 100))) := by
  obtain ⟨tipo, p, rfl⟩ := mem_costOutput hrow
  obtain ⟨hnan, hnum, _⟩ := costRowOf_cases precos tipo p
  exact ⟨hnan, hnum⟩

theorem profit_margin_formulas_witness :
    rowBoloX ∈ costOutput [flourRow, sugarRow] [massaRow] boloLines precosX
    ∧ ((rowBoloX.custo = .nan → rowBoloX.lucro = .num 0 ∧ rowBoloX.margem = .num 0)
      ∧ (∀ c : ℚ, rowBoloX.custo = .num c →
          rowBoloX.lucro = .num (round2 (rowBoloX.preco - c))
          ∧ rowBoloX.margem = .num (if rowBoloX.preco = 0 then 0
              else round1 (round2 (rowBoloX.preco - c) / rowBoloX.preco * 100)))) :=
  ⟨by rw [costOutput_c1]; exact List.mem_cons_self _ _,
    profit_margin_formulas [flourRow, sugarRow] [massaRow] boloLines precosX rowBoloX
      (by rw [costOutput_c1]; exact List.mem_cons_self _ _)⟩

/-- C10 counterexample: a margin of exactly 40% is classified "Razoável"
(reasonable), not "Excelente": the source uses a strict `> 40` comparison. -/
theorem margin_band_counterexample :
    classificacao 40 = "Razoável" ∧ classificacao 40 ≠ "Excelente" := by
  have h : classificacao 40 = "Razoável" := by
    rw [classificacao, if_neg (by norm_num : ¬(40 : ℚ) < 40),
      if_pos (by norm_num : (20 : ℚ) ≤ 40)]
  exact ⟨h, by rw [h]; decide⟩

/-- C10 (amended): the classification is "Excelente" exactly when the
margin is strictly above 40, "Razoável" exactly when it lies in [20, 40],
and "Baixa" exactly when it is below 20. -/
theorem margin_bands (m : ℚ) :
    (classificacao m = "Excelente" ↔ 40 < m)
    ∧ (classificacao m = "Razoável" ↔ 20 ≤ m ∧ m ≤ 40)
    ∧ (classificacao m = "Baixa" ↔ m < 20) := by
  rw [classificacao]
  split_ifs with h40 h20
  · exact ⟨⟨fun _ => h40, fun _ => rfl⟩,
      ⟨fun h => absurd h (by decide), fun h => absurd h.2 (not_le.mpr h40)⟩,
      ⟨fun h => absurd h (by decide), fun h => absurd h (by intro hcon; linarith)⟩⟩
  · exact ⟨⟨fun h => absurd h (by decide), fun h => absurd h h40⟩,
      ⟨fun _ => ⟨h20, le_of_not_lt h40⟩, fun _ => rfl⟩,
      ⟨fun h => absurd h (by decide), fun h => absurd h (not_lt.mpr h20)⟩⟩
  · exact ⟨⟨fun h => absurd h (by decide), fun h => absurd h h40⟩,
      ⟨fun h => absurd h (by decide), fun h => absurd h.1 h20⟩,
      ⟨fun _ => not_le.mp h20, fun _ => rfl⟩⟩

end Receitas
